import Mathlib

/-!
Shallow embedding of the constraint-block generation pipeline of the
SimToolbox sylinder system (src/Collision/CollisionSphere.hpp,
src/Sylinder/SylinderSystem.cpp, src/Constraint/ConstraintBlock.hpp).
C++ doubles are modelled as real numbers; the Eigen vector, quaternion and
3x3 matrix operations used by the source are translated explicitly.
-/

namespace SimToolbox

/-- Lab-frame 3-vector, the model of `Evec3` / `EAvec3`. -/
@[ext]
structure Vec3 where
  x : ℝ
  y : ℝ
  z : ℝ

namespace Vec3

noncomputable instance : Add Vec3 := ⟨fun a b => ⟨a.x + b.x, a.y + b.y, a.z + b.z⟩⟩

noncomputable instance : Sub Vec3 := ⟨fun a b => ⟨a.x - b.x, a.y - b.y, a.z - b.z⟩⟩

noncomputable instance : Neg Vec3 := ⟨fun a => ⟨-a.x, -a.y, -a.z⟩⟩

instance : Zero Vec3 := ⟨⟨0, 0, 0⟩⟩

noncomputable instance : SMul ℝ Vec3 := ⟨fun c a => ⟨c * a.x, c * a.y, c * a.z⟩⟩

@[simp] theorem add_def (a b : Vec3) : a + b = ⟨a.x + b.x, a.y + b.y, a.z + b.z⟩ := rfl

@[simp] theorem sub_def (a b : Vec3) : a - b = ⟨a.x - b.x, a.y - b.y, a.z - b.z⟩ := rfl

@[simp] theorem neg_def (a : Vec3) : -a = ⟨-a.x, -a.y, -a.z⟩ := rfl

@[simp] theorem zero_def : (0 : Vec3) = ⟨0, 0, 0⟩ := rfl

@[simp] theorem smul_def (c : ℝ) (a : Vec3) : c • a = ⟨c * a.x, c * a.y, c * a.z⟩ := rfl

@[simp] theorem zero_x : (0 : Vec3).x = 0 := rfl

@[simp] theorem zero_y : (0 : Vec3).y = 0 := rfl

@[simp] theorem zero_z : (0 : Vec3).z = 0 := rfl

/-- Euclidean dot product, the model of `Evec3::dot`. -/
noncomputable def dot (a b : Vec3) : ℝ := a.x * b.x + a.y * b.y + a.z * b.z

/-- Cross product, the model of `Evec3::cross`. -/
noncomputable def cross (a b : Vec3) : Vec3 :=
  ⟨a.y * b.z - a.z * b.y, a.z * b.x - a.x * b.z, a.x * b.y - a.y * b.x⟩

/-- Squared Euclidean norm. -/
noncomputable def normSq (a : Vec3) : ℝ := a.x * a.x + a.y * a.y + a.z * a.z

/-- Euclidean norm, the model of `Evec3::norm`. -/
noncomputable def vnorm (a : Vec3) : ℝ := Real.sqrt a.normSq

/-- Model of Eigen `normalized()`: the vector divided by its norm. -/
noncomputable def vnormalize (a : Vec3) : Vec3 := (1 / vnorm a) • a

/-- Component access `v[k]`, the model of Eigen `operator[]`. -/
noncomputable def nth (a : Vec3) : Fin 3 → ℝ := ![a.x, a.y, a.z]

theorem normSq_nonneg (a : Vec3) : 0 ≤ a.normSq := by
  unfold normSq; nlinarith [sq_nonneg a.x, sq_nonneg a.y, sq_nonneg a.z]

theorem vnorm_nonneg (a : Vec3) : 0 ≤ a.vnorm := Real.sqrt_nonneg _

/-- The norm is symmetric under reversal of a difference. -/
theorem vnorm_sub_comm (a b : Vec3) : vnorm (a - b) = vnorm (b - a) := by
  unfold vnorm normSq
  congr 1
  simp only [sub_def]
  ring

end Vec3

/-- Evaluation lemma for square roots of concrete perfect squares. -/
theorem sqrt_eval {a b : ℝ} (hb : 0 ≤ b) (h : b * b = a) : Real.sqrt a = b := by
  rw [← h]; exact Real.sqrt_mul_self hb

/-- Quaternion (w + xi + yj + zk), the model of `Equatn` (Eigen `Quaterniond`). -/
structure Quat where
  w : ℝ
  x : ℝ
  y : ℝ
  z : ℝ

namespace Quat

/-- The identity quaternion. -/
def qid : Quat := ⟨1, 0, 0, 0⟩

/-- Vector (imaginary) part, the model of `Equatn::vec`. -/
def qvec (q : Quat) : Vec3 := ⟨q.x, q.y, q.z⟩

/-- Conjugate, the model of `Equatn::conjugate`. -/
def conj (q : Quat) : Quat := ⟨q.w, -q.x, -q.y, -q.z⟩

/-- Hamilton product, the model of Eigen quaternion multiplication. -/
noncomputable def qmul (p q : Quat) : Quat :=
  ⟨p.w * q.w - p.x * q.x - p.y * q.y - p.z * q.z,
   p.w * q.x + p.x * q.w + p.y * q.z - p.z * q.y,
   p.w * q.y - p.x * q.z + p.y * q.w + p.z * q.x,
   p.w * q.z + p.x * q.y - p.y * q.x + p.z * q.w⟩

/-- Coefficient-wise dot product of two quaternions, used by slerp. -/
noncomputable def qdot (p q : Quat) : ℝ := p.w * q.w + p.x * q.x + p.y * q.y + p.z * q.z

noncomputable def qadd (p q : Quat) : Quat := ⟨p.w + q.w, p.x + q.x, p.y + q.y, p.z + q.z⟩

noncomputable def qsmul (c : ℝ) (q : Quat) : Quat := ⟨c * q.w, c * q.x, c * q.y, c * q.z⟩

noncomputable def qnorm (q : Quat) : ℝ :=
  Real.sqrt (q.w * q.w + q.x * q.x + q.y * q.y + q.z * q.z)

/-- Model of Eigen `normalized()` on quaternions. -/
noncomputable def qnormalize (q : Quat) : Quat := qsmul (1 / qnorm q) q

/-- Machine epsilon of IEEE double, the branch threshold inside Eigen slerp. -/
noncomputable def machineEps : ℝ := 2 ^ (-52 : ℤ)

/-- Model of Eigen `Quaternion::slerp(t, other)`: when the quaternions are
nearly aligned a linear interpolation is used, otherwise the trigonometric
spherical interpolation formula. -/
noncomputable def slerp (t : ℝ) (p q : Quat) : Quat :=
  let d := qdot p q
  let absD := |d|
  let s : ℝ × ℝ :=
    if 1 - machineEps ≤ absD then (1 - t, t)
    else
      let theta := Real.arccos absD
      (Real.sin ((1 - t) * theta) / Real.sin theta, Real.sin (t * theta) / Real.sin theta)
  let s1 := if d < 0 then -s.2 else s.2
  qadd (qsmul s.1 p) (qsmul s1 q)

/-- Model of Eigen quaternion-vector product `q * v`
(`QuaternionBase::_transformVector`). -/
noncomputable def qrot (q : Quat) (v : Vec3) : Vec3 :=
  let uv : Vec3 := (2 : ℝ) • Vec3.cross (qvec q) v
  v + q.w • uv + Vec3.cross (qvec q) uv

end Quat

/-- Collision buffer ratio.

Modelled from the spec: the constant `GEO_DEFAULT_COLBUF` lives in
`Util/GeoCommon.h`, which is not part of the sources here; the spec gives the
collision buffer (`sylinderColBuf`) default as 0.3. -/
noncomputable def GEO_DEFAULT_COLBUF : ℝ := 0.3

/-- Model of `ConstraintBlock` (src/Constraint/ConstraintBlock.hpp). The
virial `stress` array is omitted: it is filled by
`CalcSylinderNearForce::collideStress`, which is outside the given sources. -/
structure ConstraintBlock where
  delta0 : ℝ
  gamma : ℝ
  gidI : ℤ
  gidJ : ℤ
  gidK : ℤ
  globalIndexI : ℤ
  globalIndexJ : ℤ
  globalIndexK : ℤ
  oneSide : Bool
  bilateral : Bool
  kappa : ℝ
  labI : Vec3
  labJ : Vec3
  labK : Vec3
  unscaledForceComI : Vec3
  unscaledForceComJ : Vec3
  unscaledForceComK : Vec3
  unscaledTorqueComI : Vec3
  unscaledTorqueComJ : Vec3
  unscaledTorqueComK : Vec3

/-- The two-body `ConstraintBlock` constructor: `gidK` and all K fields keep
their defaulted values. -/
def ConstraintBlock.mk2 (delta0 gamma : ℝ) (gidI gidJ globalIndexI globalIndexJ : ℤ)
    (unscaledForceComI unscaledForceComJ unscaledTorqueComI unscaledTorqueComJ : Vec3)
    (labI labJ : Vec3) (oneSide bilateral : Bool) (kappa : ℝ) : ConstraintBlock :=
  { delta0 := delta0, gamma := gamma, gidI := gidI, gidJ := gidJ, gidK := -1,
    globalIndexI := globalIndexI, globalIndexJ := globalIndexJ, globalIndexK := -1,
    oneSide := oneSide, bilateral := bilateral, kappa := kappa,
    labI := labI, labJ := labJ, labK := 0,
    unscaledForceComI := unscaledForceComI, unscaledForceComJ := unscaledForceComJ,
    unscaledForceComK := 0,
    unscaledTorqueComI := unscaledTorqueComI, unscaledTorqueComJ := unscaledTorqueComJ,
    unscaledTorqueComK := 0 }

/-- Model of `CollisionBlock` as filled by `CollisionSphere::collide`. -/
structure CollisionBlock where
  normI : Vec3
  normJ : Vec3
  phi0 : ℝ
  gidI : ℤ
  gidJ : ℤ
  globalIndexI : ℤ
  globalIndexJ : ℤ
  posI : Vec3
  posJ : Vec3
  gamma : ℝ

/-- Model of `CollisionSphere` (src/Collision/CollisionSphere.hpp). -/
structure CollisionSphere where
  gid : ℤ
  globalIndex : ℤ
  radiusCollision : ℝ
  pos : Vec3

namespace CollisionSphere

/-- Search radius advertised to the near-interaction tree
(`CollisionSphere::Rad`). -/
noncomputable def Rad (s : CollisionSphere) : ℝ :=
  s.radiusCollision * (1 + GEO_DEFAULT_COLBUF * 2)

open scoped Classical in
/-- Model of `CollisionSphere::collide`: returns the filled collision block
when one is recorded, `none` otherwise. -/
noncomputable def collide (sI sJ : CollisionSphere) (srcShift : Vec3) :
    Option CollisionBlock :=
  if sJ.gid ≤ sI.gid then
    -- no self collision; do not record gid > J.gid
    none
  else
    let posI := sI.pos
    let posJ := sJ.pos + srcShift
    let rIJ := posJ - posI
    let rIJNorm := Vec3.vnorm rIJ
    let sep := rIJNorm - sI.radiusCollision - sJ.radiusCollision
    -- save only block gidI < gidJ
    if sep < GEO_DEFAULT_COLBUF * sI.radiusCollision then
      some { normI := (-1 / rIJNorm) • rIJ,
             normJ := -((-1 / rIJNorm) • rIJ),
             phi0 := sep,
             gidI := sI.gid, gidJ := sJ.gid,
             globalIndexI := sI.globalIndex, globalIndexJ := sJ.globalIndex,
             posI := 0, posJ := 0,
             gamma := if sep < 0 then -sep else 0 }
    else
      none

end CollisionSphere

/-- The fields of `SylinderConfig` (src/Sylinder/SylinderConfig.hpp) used by
the constraint generators. -/
structure SylinderConfig where
  simBoxLow : Fin 3 → ℝ
  simBoxHigh : Fin 3 → ℝ
  simBoxPBC : Fin 3 → Bool
  sylinderColBuf : ℝ
  extendLinkKappa : ℝ
  extendLinkGap : ℝ
  bendLinkKappa : Fin 3 → ℝ
  tribendLinkKappa : Fin 3 → ℝ
  preferredCurvature : Fin 3 → ℝ

/-- The fields of a locally owned `Sylinder` particle used by the generators.
The class itself lives in `Sylinder/Sylinder.hpp`, outside the given sources;
only the fields read by `SylinderSystem.cpp` are modelled. -/
structure Sylinder where
  gid : ℤ
  globalIndex : ℤ
  pos : Vec3
  orientation : Quat
  length : ℝ
  lengthCollision : ℝ
  radius : ℝ
  radiusCollision : ℝ
  isImmovable : Bool

/-- The fields of a near-data record (`dataToFind` entry of the sylinder data
directory) read by the link generators: position, direction, length, radius,
gid, globalIndex, and the orientation used by the bend generator. -/
structure SylinderNearEntry where
  gid : ℤ
  globalIndex : ℤ
  pos : Vec3
  direction : Vec3
  orientation : Quat
  length : ℝ
  radius : ℝ

/-- Periodic image selection.

Modelled from the spec: `findPBCImage` is declared in a utility header that is
not among the given sources. Per the spec (section 4.4.3) it shifts the
coordinate `x` by an integer multiple of the period `high - low` so that the
shifted value is nearer to the target `trg` than half a period. -/
noncomputable def findPBCImage (low high x trg : ℝ) : ℝ :=
  x + (high - low) * (round ((trg - x) / (high - low)) : ℤ)

open scoped Classical in
/-- The per-axis periodic-image loop shared by the link generators
(SylinderSystem.cpp): on each periodic axis `centerJ[k]` is replaced by
`findPBCImage(simBoxLow[k], simBoxHigh[k], centerJ[k], centerI[k])`; if the
replaced coordinate still differs from `centerI[k]` by more than half the box
length, the program logs a critical error and exits. The fatal exit is
modelled as `Except.error`. -/
noncomputable def resolvePBCImage (cfg : SylinderConfig) (centerI centerJ : Vec3) :
    Except Unit Vec3 :=
  let img : Fin 3 → ℝ := fun k =>
    if cfg.simBoxPBC k then
      findPBCImage (cfg.simBoxLow k) (cfg.simBoxHigh k) (centerJ.nth k) (centerI.nth k)
    else centerJ.nth k
  if ∀ k : Fin 3, cfg.simBoxPBC k = true →
      |centerI.nth k - img k| ≤ 0.5 * (cfg.simBoxHigh k - cfg.simBoxLow k) then
    Except.ok ⟨img 0, img 1, img 2⟩
  else
    Except.error ()

/-- The world basis vectors, the model of the `normIVec` list in
`collectPinLinkBilateral`. -/
def basis3 : Fin 3 → Vec3 := ![⟨1, 0, 0⟩, ⟨0, 1, 0⟩, ⟨0, 0, 1⟩]

/-- One loop-body iteration of `SylinderSystem::collectPinLinkBilateral` for
axis `k`, with `centerJ` the periodic-image-resolved center of the partner.

The C++ loop header is `for (size_t i = 0; i = 3; i++)`: its condition is an
assignment, so the compiled loop never performs the intended three iterations
(the body would run with `i == 3` forever, indexing `rvec` and `normIVec` out
of bounds). The body is translated here for a well-typed axis index `k`,
following the evident intent stated in the comment above the loop (three pin
constraints, one per dimension). -/
noncomputable def pinBlock (syI : Sylinder) (syJ : SylinderNearEntry) (centerJ : Vec3)
    (k : Fin 3) : ConstraintBlock :=
  let centerI := syI.pos
  let directionI := Quat.qrot syI.orientation ⟨0, 0, 1⟩
  let Pp := centerI + (0.5 * syI.length) • directionI
  let directionJ := syJ.direction
  let Qm := centerJ - (0.5 * syJ.length) • directionJ
  let Ploc := Pp
  let Qloc := Qm
  let rvec := Ploc - Qloc
  let posI := Ploc - centerI
  let posJ := Qloc - centerJ
  let delta0 := rvec.nth k
  let gammaGuess : ℝ := 0
  let unscaledForceComI := basis3 k
  let unscaledForceComJ := -unscaledForceComI
  let unscaledTorqueComI := Vec3.cross posI unscaledForceComI
  let unscaledTorqueComJ := Vec3.cross posJ unscaledForceComJ
  ConstraintBlock.mk2 delta0 gammaGuess syI.gid syJ.gid syI.globalIndex syJ.globalIndex
    unscaledForceComI unscaledForceComJ unscaledTorqueComI unscaledTorqueComJ
    Ploc Qloc false true 0

/-- The blocks the pin generator is intended to emit for one
`(gidI, gidJ)` edge: one per world axis. -/
noncomputable def pinBlocksIntended (syI : Sylinder) (syJ : SylinderNearEntry)
    (centerJ : Vec3) : List ConstraintBlock :=
  (List.finRange 3).map (pinBlock syI syJ centerJ)

open scoped Classical in
/-- The block emitted by `SylinderSystem::collectExtendLinkBilateral` for one
`(gidI, gidJ)` edge, with `centerJ` the periodic-image-resolved center. -/
noncomputable def extendBlock (cfg : SylinderConfig) (syI : Sylinder)
    (syJ : SylinderNearEntry) (centerJ : Vec3) : ConstraintBlock :=
  let centerI := syI.pos
  let directionI := Quat.qrot syI.orientation ⟨0, 0, 1⟩
  let Pp := centerI + (0.5 * syI.length) • directionI
  let directionJ := syJ.direction
  let Qm := centerJ - (0.5 * syJ.length) • directionJ
  let Ploc := Pp
  let Qloc := Qm
  let rvec := Qloc - Ploc
  let delta0 := rvec.vnorm - syI.radius - syJ.radius - cfg.extendLinkGap
  let gamma := if delta0 < 0 then -delta0 else 0
  let normI := Vec3.vnormalize (Ploc - Qloc)
  let posI := Ploc - centerI
  let posJ := Qloc - centerJ
  let unscaledForceComI := normI
  let unscaledForceComJ := -unscaledForceComI
  let unscaledTorqueComI := Vec3.cross posI unscaledForceComI
  let unscaledTorqueComJ := Vec3.cross posJ unscaledForceComJ
  ConstraintBlock.mk2 delta0 gamma syI.gid syJ.gid syI.globalIndex syJ.globalIndex
    unscaledForceComI unscaledForceComJ unscaledTorqueComI unscaledTorqueComJ
    Ploc Qloc false true cfg.extendLinkKappa

/-- One loop iteration (axis `k`) of `SylinderSystem::collectBendLinkBilateral`
for one `(gidI, gidJ)` edge, with `centerJ` the periodic-image-resolved
center. -/
noncomputable def bendBlock (cfg : SylinderConfig) (syI : Sylinder)
    (syJ : SylinderNearEntry) (centerJ : Vec3) (k : Fin 3) : ConstraintBlock :=
  let centerI := syI.pos
  let directionI := Quat.qrot syI.orientation ⟨0, 0, 1⟩
  let Pp := centerI + (0.5 * syI.length) • directionI
  let directionJ := syJ.direction
  let Qm := centerJ - (0.5 * syJ.length) • directionJ
  let Ploc := Pp
  let Qloc := Qm
  let equatI := syI.orientation
  let equatJ := syJ.orientation
  let equatIJ := Quat.qnormalize (Quat.slerp 0.5 equatI equatJ)
  let dirIJ : Fin 3 → Vec3 :=
    ![Quat.qrot equatIJ ⟨1, 0, 0⟩, Quat.qrot equatIJ ⟨0, 1, 0⟩, Quat.qrot equatIJ ⟨0, 0, 1⟩]
  let curvature :=
    (Quat.qmul (Quat.conj equatI) equatJ).qvec - (Quat.qmul equatI (Quat.conj equatJ)).qvec
  let delta0 := curvature.nth k - cfg.preferredCurvature k
  let unscaledForceComI : Vec3 := 0
  let unscaledForceComJ : Vec3 := 0
  let unscaledTorqueComI := -(dirIJ k)
  let unscaledTorqueComJ := -unscaledTorqueComI
  let gammaGuess : ℝ := 0
  ConstraintBlock.mk2 delta0 gammaGuess syI.gid syJ.gid syI.globalIndex syJ.globalIndex
    unscaledForceComI unscaledForceComJ unscaledTorqueComI unscaledTorqueComJ
    Ploc Qloc false true (cfg.bendLinkKappa k)

/-- The three-body `ConstraintBlock` constructor. -/
def ConstraintBlock.mk3 (delta0 gamma : ℝ)
    (gidI gidJ gidK globalIndexI globalIndexJ globalIndexK : ℤ)
    (unscaledForceComI unscaledForceComJ unscaledForceComK : Vec3)
    (unscaledTorqueComI unscaledTorqueComJ unscaledTorqueComK : Vec3)
    (labI labJ labK : Vec3) (oneSide bilateral : Bool) (kappa : ℝ) : ConstraintBlock :=
  { delta0 := delta0, gamma := gamma, gidI := gidI, gidJ := gidJ, gidK := gidK,
    globalIndexI := globalIndexI, globalIndexJ := globalIndexJ, globalIndexK := globalIndexK,
    oneSide := oneSide, bilateral := bilateral, kappa := kappa,
    labI := labI, labJ := labJ, labK := labK,
    unscaledForceComI := unscaledForceComI, unscaledForceComJ := unscaledForceComJ,
    unscaledForceComK := unscaledForceComK,
    unscaledTorqueComI := unscaledTorqueComI, unscaledTorqueComJ := unscaledTorqueComJ,
    unscaledTorqueComK := unscaledTorqueComK }

/-- Conversion of a `Vec3` to a Mathlib `Fin 3`-indexed vector. -/
noncomputable def Vec3.toFin (a : Vec3) : Fin 3 → ℝ := a.nth

/-- Conversion of a Mathlib `Fin 3`-indexed vector back to a `Vec3`. -/
noncomputable def Vec3.ofFin (f : Fin 3 → ℝ) : Vec3 := ⟨f 0, f 1, f 2⟩

/-- Outer product `u * vᵀ` of two 3-vectors, the model of the Eigen
expression `u * v.transpose()`. -/
noncomputable def outer3 (u v : Vec3) : Matrix (Fin 3) (Fin 3) ℝ :=
  Matrix.vecMulVec u.toFin v.toFin

/-- Model of Eigen `Quaternion::FromTwoVectors` (regular branch): the
quaternion rotating the direction of `a` onto the direction of `b`. Eigen's
near-antipodal fallback (resolved there through an SVD) is not modelled; no
settled claim depends on the value of this function. -/
noncomputable def Quat.fromTwoVectors (a b : Vec3) : Quat :=
  let v0 := Vec3.vnormalize a
  let v1 := Vec3.vnormalize b
  let c := Vec3.dot v1 v0
  let axis := Vec3.cross v0 v1
  let s := Real.sqrt ((1 + c) * 2)
  let invs := 1 / s
  ⟨s * 0.5, invs * axis.x, invs * axis.y, invs * axis.z⟩

/-- One loop iteration (axis `k`) of
`SylinderSystem::collectTriBendLinkBilateral` for one `(gidI, (gidJ, gidK))`
triple, with `centerJ`, `centerK` the periodic-image-resolved centers. The
Eigen `inverse()` of the (singular) chord moment tensors is the 3x3
adjugate-over-determinant closed form, which is Mathlib's matrix `⁻¹`. -/
noncomputable def triBendBlock (cfg : SylinderConfig) (syI : Sylinder)
    (syJ syK : SylinderNearEntry) (centerJ centerK : Vec3) (k : Fin 3) : ConstraintBlock :=
  let centerI := syI.pos
  let orientVecJI0 := centerI - centerJ
  let orientVecIK0 := centerK - centerI
  let distJI := orientVecJI0.vnorm
  let distIK := orientVecIK0.vnorm
  let orientVecJI := (1 / distJI) • orientVecJI0
  let orientVecIK := (1 / distIK) • orientVecIK0
  let equatI := Quat.fromTwoVectors ⟨0, 0, 1⟩ orientVecJI
  let equatJ := Quat.fromTwoVectors ⟨0, 0, 1⟩ orientVecIK
  let equatIJ := Quat.qnormalize (Quat.slerp 0.5 equatI equatJ)
  let dirIJ : Fin 3 → Vec3 :=
    ![Quat.qrot equatIJ ⟨1, 0, 0⟩, Quat.qrot equatIJ ⟨0, 1, 0⟩, Quat.qrot equatIJ ⟨0, 0, 1⟩]
  let momIntJI : Matrix (Fin 3) (Fin 3) ℝ :=
    (distJI * distJI) • (outer3 orientVecJI orientVecJI - 1)
  let momIntIK : Matrix (Fin 3) (Fin 3) ℝ :=
    (distIK * distIK) • (outer3 orientVecIK orientVecIK - 1)
  let momIntJIinv := momIntJI⁻¹
  let momIntIKinv := momIntIK⁻¹
  let curvature :=
    (Quat.qmul (Quat.conj equatI) equatJ).qvec - (Quat.qmul equatI (Quat.conj equatJ)).qvec
  let delta0 := curvature.nth k - cfg.preferredCurvature k
  let unscaledTorqueComBetweenJandI := -(dirIJ k)
  let unscaledTorqueComBetweenIandK := -unscaledTorqueComBetweenJandI
  let unscaledForceComJ :=
    -(Vec3.ofFin (momIntJIinv.mulVec
        (Vec3.cross (distJI • orientVecJI) unscaledTorqueComBetweenJandI).toFin))
  let unscaledForceComI :=
    Vec3.ofFin (momIntJIinv.mulVec
        (Vec3.cross (distJI • orientVecJI) unscaledTorqueComBetweenJandI).toFin) -
      Vec3.ofFin (momIntIKinv.mulVec
        (Vec3.cross (distIK • orientVecIK) unscaledTorqueComBetweenIandK).toFin)
  let unscaledForceComK :=
    Vec3.ofFin (momIntIKinv.mulVec
        (Vec3.cross (distIK • orientVecIK) unscaledTorqueComBetweenIandK).toFin)
  let unscaledTorqueComI : Vec3 := 0
  let unscaledTorqueComJ : Vec3 := 0
  let unscaledTorqueComK : Vec3 := 0
  let gammaGuess : ℝ := 0
  ConstraintBlock.mk3 delta0 gammaGuess syI.gid syJ.gid syK.gid
    syI.globalIndex syJ.globalIndex syK.globalIndex
    unscaledForceComI unscaledForceComJ unscaledForceComK
    unscaledTorqueComI unscaledTorqueComJ unscaledTorqueComK
    centerI centerJ centerK false true (cfg.tribendLinkKappa k)

open scoped Classical in
/-- The per-end-point lambda `checkEnd` of
`SylinderSystem::collectBoundaryCollision`, abstracted over the boundary's
`project` member (the boundary class hierarchy is outside the given sources).
Emits the one-sided unilateral block pushed to the per-thread queue, if any. -/
noncomputable def checkEnd (project : Vec3 → Vec3 × Vec3) (colBuf : ℝ) (sy : Sylinder)
    (Query : Vec3) (radius : ℝ) : Option ConstraintBlock :=
  let center := sy.pos
  let Proj := (project Query).1
  let delta := (project Query).2
  let deltanorm := Vec3.vnorm delta
  let norm := (1 / deltanorm) • delta
  let posI := Query - center
  if Vec3.dot (Query - Proj) delta < 0 then
    -- outside boundary
    some (ConstraintBlock.mk2 (-deltanorm - radius) 0 sy.gid sy.gid sy.globalIndex sy.globalIndex
      norm norm posI posI Query Proj true false 0)
  else if deltanorm < (1 + colBuf * 2) * sy.radiusCollision then
    -- inside boundary but close
    some (ConstraintBlock.mk2 (deltanorm - radius) 0 sy.gid sy.gid sy.globalIndex sy.globalIndex
      norm norm posI posI Query Proj true false 0)
  else
    none

/-- The blocks `collectBoundaryCollision` emits for one sylinder against one
boundary. `isSphereCol` stands for `sy.isSphere(true)`, whose definition is
outside the given sources (per the spec, short rods are treated as
spheres); it selects the single-center check with the enlarged effective
radius. -/
noncomputable def collectBoundarySylinder (project : Vec3 → Vec3 × Vec3) (colBuf : ℝ)
    (sy : Sylinder) (isSphereCol : Bool) : List ConstraintBlock :=
  if isSphereCol then
    let radius := sy.lengthCollision * 0.5 + sy.radiusCollision
    (checkEnd project colBuf sy sy.pos radius).toList
  else
    let direction := Quat.qrot sy.orientation ⟨0, 0, 1⟩
    let length := sy.lengthCollision
    let Qm := sy.pos - (length * 0.5) • direction
    let Qp := sy.pos + (length * 0.5) • direction
    (checkEnd project colBuf sy Qm sy.radiusCollision).toList ++
      (checkEnd project colBuf sy Qp sy.radiusCollision).toList

/-- Planar wall boundary.

Modelled from the spec: the boundary variant `Wall(plane)` with a single
`project(point) → (proj, delta)` operation is described in the spec's design
notes; the source of the boundary classes is not among the given files. The
wall is the plane through `point` with unit normal `normal` pointing into the
domain interior; `proj` is the orthogonal projection onto the plane, and
(per the sign convention documented at the call site in SylinderSystem.cpp)
`delta = Q - proj` for a query inside the domain and `delta = proj - Q`
outside. -/
structure Wall where
  point : Vec3
  normal : Vec3

open scoped Classical in
/-- Projection onto a planar wall; see `Wall`. -/
noncomputable def wallProject (w : Wall) (Q : Vec3) : Vec3 × Vec3 :=
  let s := Vec3.dot (Q - w.point) w.normal
  let Proj := Q - s • w.normal
  if 0 ≤ s then (Proj, Q - Proj) else (Proj, Proj - Q)

/-- The translational mobility block assembled by
`SylinderSystem::calcMobMatrix` for one rod with orientation axis `q` and drag
coefficients from `calcDragCoeff` (the latter lives outside the given
sources and is kept as parameters). -/
noncomputable def mobTransMat (q : Vec3) (dragPara dragPerp : ℝ) (im : Bool) :
    Matrix (Fin 3) (Fin 3) ℝ :=
  let dragParaInv := if im then 0 else 1 / dragPara
  let dragPerpInv := if im then 0 else 1 / dragPerp
  let qq := outer3 q q
  let Imqq := 1 - qq
  dragParaInv • qq + dragPerpInv • Imqq

/-- The rotational mobility block assembled by
`SylinderSystem::calcMobMatrix`, written exactly as in the source
(`dragRotInv * qq + dragRotInv * Imqq`). -/
noncomputable def mobRotMat (q : Vec3) (dragRot : ℝ) (im : Bool) :
    Matrix (Fin 3) (Fin 3) ℝ :=
  let dragRotInv := if im then 0 else 1 / dragRot
  let qq := outer3 q q
  let Imqq := 1 - qq
  dragRotInv • qq + dragRotInv • Imqq

/-- The 18 sparse values written for rod `i` by `calcMobMatrix`, in the order
of the `values[18 * i + _]` assignments. -/
noncomputable def mobValues (q : Vec3) (dragPara dragPerp dragRot : ℝ) (im : Bool) :
    Fin 18 → ℝ :=
  let MobTrans := mobTransMat q dragPara dragPerp im
  let MobRot := mobRotMat q dragRot im
  ![MobTrans 0 0, MobTrans 0 1, MobTrans 0 2,
    MobTrans 1 0, MobTrans 1 1, MobTrans 1 2,
    MobTrans 2 0, MobTrans 2 1, MobTrans 2 2,
    MobRot 0 0, MobRot 0 1, MobRot 0 2,
    MobRot 1 0, MobRot 1 1, MobRot 1 2,
    MobRot 2 0, MobRot 2 1, MobRot 2 2]

/-- The 18 sparse column indices written for rod `i` by `calcMobMatrix`, in
the order of the `columnIndices[18 * i + _]` assignments. -/
def mobColumnIndices (i : ℕ) : Fin 18 → ℕ :=
  ![6*i, 6*i+1, 6*i+2, 6*i, 6*i+1, 6*i+2, 6*i, 6*i+1, 6*i+2,
    6*i+3, 6*i+4, 6*i+5, 6*i+3, 6*i+4, 6*i+5, 6*i+3, 6*i+4, 6*i+5]

/-- The CSR row-pointer array of `calcMobMatrix`: `rowPointers[0] = 0` and
`rowPointers[i] = rowPointers[i-1] + 3`. -/
def rowPointersFun : ℕ → ℕ
  | 0 => 0
  | n + 1 => rowPointersFun n + 3

/-- The plus end `P` of a locally owned sylinder,
`center + direction * (0.5 * length)`. -/
noncomputable def plusEnd (sy : Sylinder) : Vec3 :=
  sy.pos + (0.5 * sy.length) • Quat.qrot sy.orientation ⟨0, 0, 1⟩

/-- The minus end `Q` of a near-data partner whose center has been replaced
by `centerJ`, `centerJ - direction * (0.5 * length)`. -/
noncomputable def minusEnd (syJ : SylinderNearEntry) (centerJ : Vec3) : Vec3 :=
  centerJ - (0.5 * syJ.length) • syJ.direction

theorem qrot_qid (v : Vec3) : Quat.qrot Quat.qid v = v := by
  simp only [Quat.qrot, Quat.qid, Quat.qvec, Vec3.cross, Vec3.smul_def, Vec3.add_def]
  ext <;> ring

theorem slerp_half_qid : Quat.slerp 0.5 Quat.qid Quat.qid = ⟨1, 0, 0, 0⟩ := by
  simp only [Quat.slerp, Quat.qdot, Quat.qid]
  rw [if_pos (by rw [abs_of_nonneg (by norm_num)]; norm_num [Quat.machineEps])]
  rw [if_neg (by norm_num)]
  simp only [Quat.qadd, Quat.qsmul]
  norm_num

theorem qnormalize_one : Quat.qnormalize (⟨1, 0, 0, 0⟩ : Quat) = Quat.qid := by
  simp only [Quat.qnormalize, Quat.qnorm, Quat.qsmul, Quat.qid]
  norm_num [Real.sqrt_one]

@[simp] theorem Vec3.nth_zero (v : Vec3) : v.nth 0 = v.x := rfl

@[simp] theorem Vec3.nth_one (v : Vec3) : v.nth 1 = v.y := rfl

@[simp] theorem Vec3.nth_two (v : Vec3) : v.nth 2 = v.z := rfl

theorem Vec3.nth_ofFin (f : Fin 3 → ℝ) (k : Fin 3) : (Vec3.ofFin f).nth k = f k := by
  fin_cases k <;> rfl

open scoped Classical in
/-- Branch-level characterization of `CollisionSphere::collide`: the recorded
block written out as a function of the inputs. -/
theorem collide_eval (sI sJ : CollisionSphere) (srcShift : Vec3) :
    CollisionSphere.collide sI sJ srcShift =
      (if sI.gid < sJ.gid ∧
          Vec3.vnorm (sJ.pos + srcShift - sI.pos) - sI.radiusCollision - sJ.radiusCollision
            < GEO_DEFAULT_COLBUF * sI.radiusCollision then
        some { normI := (-1 / Vec3.vnorm (sJ.pos + srcShift - sI.pos)) •
                  (sJ.pos + srcShift - sI.pos),
               normJ := -((-1 / Vec3.vnorm (sJ.pos + srcShift - sI.pos)) •
                  (sJ.pos + srcShift - sI.pos)),
               phi0 := Vec3.vnorm (sJ.pos + srcShift - sI.pos) - sI.radiusCollision -
                  sJ.radiusCollision,
               gidI := sI.gid, gidJ := sJ.gid,
               globalIndexI := sI.globalIndex, globalIndexJ := sJ.globalIndex,
               posI := 0, posJ := 0,
               gamma := if Vec3.vnorm (sJ.pos + srcShift - sI.pos) - sI.radiusCollision -
                    sJ.radiusCollision < 0 then
                  -(Vec3.vnorm (sJ.pos + srcShift - sI.pos) - sI.radiusCollision -
                    sJ.radiusCollision)
                else 0 }
      else none) := by
  simp only [CollisionSphere.collide]
  by_cases hg : sJ.gid ≤ sI.gid
  · rw [if_pos hg, if_neg]
    intro h
    exact absurd h.1 (not_lt.mpr hg)
  · rw [if_neg hg]
    by_cases hs : Vec3.vnorm (sJ.pos + srcShift - sI.pos) - sI.radiusCollision -
        sJ.radiusCollision < GEO_DEFAULT_COLBUF * sI.radiusCollision
    · have hcond : sI.gid < sJ.gid ∧
          Vec3.vnorm (sJ.pos + srcShift - sI.pos) - sI.radiusCollision - sJ.radiusCollision
            < GEO_DEFAULT_COLBUF * sI.radiusCollision := ⟨not_le.mp hg, hs⟩
      rw [if_pos hs, if_pos hcond]
    · have hncond : ¬(sI.gid < sJ.gid ∧
          Vec3.vnorm (sJ.pos + srcShift - sI.pos) - sI.radiusCollision - sJ.radiusCollision
            < GEO_DEFAULT_COLBUF * sI.radiusCollision) := fun h => hs h.2
      rw [if_neg hs, if_neg hncond]

/-- C3 (amended): for every candidate pair of collision spheres under any
periodic source shift, `CollisionSphere::collide` emits a block iff
`gidI < gidJ` and the signed gap `sep = |P_J - P_I| - r_I - r_J` is below
`GEO_DEFAULT_COLBUF * r_I`; the emitted block has `phi0 = sep`, an I-side
normal equal to the NEGATION of the unit vector from I into J (it points from
J into I), J-side normal the negation of the I-side one, and initial
multiplier guess `max(-sep, 0)`. In particular self-pairs and pairs with
`gidI > gidJ` are never emitted. -/
theorem pair_collision_emission_amended (sI sJ : CollisionSphere) (srcShift : Vec3) :
    ((CollisionSphere.collide sI sJ srcShift).isSome = true ↔
      sI.gid < sJ.gid ∧
        Vec3.vnorm (sJ.pos + srcShift - sI.pos) - sI.radiusCollision - sJ.radiusCollision <
          GEO_DEFAULT_COLBUF * sI.radiusCollision) ∧
    ((CollisionSphere.collide sI sJ srcShift).elim True fun b =>
      b.phi0 = Vec3.vnorm (sJ.pos + srcShift - sI.pos) - sI.radiusCollision -
        sJ.radiusCollision ∧
      b.normI = -((1 / Vec3.vnorm (sJ.pos + srcShift - sI.pos)) •
        (sJ.pos + srcShift - sI.pos)) ∧
      b.normJ = -b.normI ∧
      b.gamma = max (-b.phi0) 0 ∧
      b.gidI = sI.gid ∧ b.gidJ = sJ.gid) := by
  rw [collide_eval]
  by_cases h : sI.gid < sJ.gid ∧
      Vec3.vnorm (sJ.pos + srcShift - sI.pos) - sI.radiusCollision - sJ.radiusCollision <
        GEO_DEFAULT_COLBUF * sI.radiusCollision
  · rw [if_pos h]
    refine ⟨by simpa using h, ?_⟩
    refine ⟨rfl, ?_, rfl, ?_, rfl, rfl⟩
    · ext <;> simp only [Vec3.smul_def, Vec3.neg_def] <;> ring
    · by_cases h0 : Vec3.vnorm (sJ.pos + srcShift - sI.pos) - sI.radiusCollision -
          sJ.radiusCollision < 0
      · rw [if_pos h0, max_eq_left (by linarith)]
      · rw [if_neg h0, max_eq_right (by linarith)]
  · rw [if_neg h]
    simpa using h

/-- C3 counterexample: for spheres I = (gid 0, radius 1, center at the
origin) and J = (gid 1, radius 1, center (1,0,0)) with zero shift, a block is
emitted whose stored I-side normal is (-1,0,0), while the unit vector
pointing from I into J is (1,0,0) — the claim's normal direction is the
negation of what the code stores. -/
theorem pair_collision_normal_cex :
    (CollisionSphere.collide ⟨0, 0, 1, ⟨0, 0, 0⟩⟩ ⟨1, 1, 1, ⟨1, 0, 0⟩⟩ 0).isSome = true ∧
    (CollisionSphere.collide ⟨0, 0, 1, ⟨0, 0, 0⟩⟩ ⟨1, 1, 1, ⟨1, 0, 0⟩⟩ 0).map
        CollisionBlock.normI = some ⟨-1, 0, 0⟩ ∧
    Vec3.vnormalize ((((⟨1, 1, 1, ⟨1, 0, 0⟩⟩ : CollisionSphere).pos + 0) -
        (⟨0, 0, 1, ⟨0, 0, 0⟩⟩ : CollisionSphere).pos)) = ⟨1, 0, 0⟩ ∧
    (⟨-1, 0, 0⟩ : Vec3) ≠ ⟨1, 0, 0⟩ := by
  have hv : (((⟨1, 1, 1, ⟨1, 0, 0⟩⟩ : CollisionSphere).pos + 0) -
      (⟨0, 0, 1, ⟨0, 0, 0⟩⟩ : CollisionSphere).pos) = (⟨1, 0, 0⟩ : Vec3) := by
    ext <;> norm_num
  have hn : Vec3.vnorm ⟨1, 0, 0⟩ = 1 := by
    unfold Vec3.vnorm Vec3.normSq
    norm_num [Real.sqrt_one]
  have hc := collide_eval ⟨0, 0, 1, ⟨0, 0, 0⟩⟩ ⟨1, 1, 1, ⟨1, 0, 0⟩⟩ 0
  rw [hv, hn] at hc
  rw [hc, if_pos (by norm_num [GEO_DEFAULT_COLBUF])]
  refine ⟨rfl, ?_, ?_, ?_⟩
  · simp only [Option.map_some, Option.some.injEq]
    ext
    all_goals norm_num
  · rw [hv]
    unfold Vec3.vnormalize
    rw [hn]
    ext <;> norm_num
  · intro hcontra
    have := congrArg Vec3.x hcontra
    norm_num at this

/-- C10: the neighbor-search radius `Rad() = radiusCollision * (1 + 2 *
GEO_DEFAULT_COLBUF)` is sufficient: whenever `collide` emits a block for a
pair (under any source shift), the two search balls overlap, i.e. the
center distance is at most `Rad_I + Rad_J`. -/
theorem search_radius_sufficient (sI sJ : CollisionSphere) (srcShift : Vec3)
    (hI : 0 ≤ sI.radiusCollision) (hJ : 0 ≤ sJ.radiusCollision)
    (hc : (CollisionSphere.collide sI sJ srcShift).isSome = true) :
    Vec3.vnorm (sJ.pos + srcShift - sI.pos) ≤ sI.Rad + sJ.Rad := by
  rw [collide_eval] at hc
  by_cases h : sI.gid < sJ.gid ∧
      Vec3.vnorm (sJ.pos + srcShift - sI.pos) - sI.radiusCollision - sJ.radiusCollision <
        GEO_DEFAULT_COLBUF * sI.radiusCollision
  · have hsep := h.2
    unfold CollisionSphere.Rad GEO_DEFAULT_COLBUF
    unfold GEO_DEFAULT_COLBUF at hsep
    nlinarith [hsep, hI, hJ]
  · rw [if_neg h] at hc
    simp at hc

/-- C10 witness: concrete emitting pair (unit radii, centers one apart)
within the search radii. -/
theorem search_radius_sufficient_witness :
    0 ≤ (1 : ℝ) ∧
    (CollisionSphere.collide ⟨0, 0, 1, ⟨0, 0, 0⟩⟩ ⟨2, 2, 1, ⟨0, 1, 0⟩⟩ 0).isSome = true ∧
    Vec3.vnorm ((⟨2, 2, 1, ⟨0, 1, 0⟩⟩ : CollisionSphere).pos + 0 -
        (⟨0, 0, 1, ⟨0, 0, 0⟩⟩ : CollisionSphere).pos) ≤
      CollisionSphere.Rad ⟨0, 0, 1, ⟨0, 0, 0⟩⟩ + CollisionSphere.Rad ⟨2, 2, 1, ⟨0, 1, 0⟩⟩ := by
  have hv : ((⟨2, 2, 1, ⟨0, 1, 0⟩⟩ : CollisionSphere).pos + 0 -
      (⟨0, 0, 1, ⟨0, 0, 0⟩⟩ : CollisionSphere).pos) = (⟨0, 1, 0⟩ : Vec3) := by
    ext <;> norm_num
  have hn : Vec3.vnorm ⟨0, 1, 0⟩ = 1 := by
    unfold Vec3.vnorm Vec3.normSq
    norm_num [Real.sqrt_one]
  have hsome : (CollisionSphere.collide ⟨0, 0, 1, ⟨0, 0, 0⟩⟩
      ⟨2, 2, 1, ⟨0, 1, 0⟩⟩ 0).isSome = true := by
    rw [collide_eval, hv, hn, if_pos (by norm_num [GEO_DEFAULT_COLBUF])]
    rfl
  exact ⟨by norm_num, hsome,
    search_radius_sufficient _ _ _ (by norm_num) (by norm_num) hsome⟩

/-- C6: for every two-rod constraint block emitted by the pair-collision,
pin-link, extend-link, or bend-link generators, the stored J-side unscaled
force is the componentwise negation of the I-side one (for bend blocks both
are zero). -/
theorem two_body_force_negation :
    (∀ (sI sJ : CollisionSphere) (srcShift : Vec3),
      (CollisionSphere.collide sI sJ srcShift).elim True fun b => b.normJ = -b.normI) ∧
    (∀ (syI : Sylinder) (syJ : SylinderNearEntry) (centerJ : Vec3) (k : Fin 3),
      (pinBlock syI syJ centerJ k).unscaledForceComJ =
        -(pinBlock syI syJ centerJ k).unscaledForceComI) ∧
    (∀ (cfg : SylinderConfig) (syI : Sylinder) (syJ : SylinderNearEntry) (centerJ : Vec3),
      (extendBlock cfg syI syJ centerJ).unscaledForceComJ =
        -(extendBlock cfg syI syJ centerJ).unscaledForceComI) ∧
    (∀ (cfg : SylinderConfig) (syI : Sylinder) (syJ : SylinderNearEntry) (centerJ : Vec3)
        (k : Fin 3),
      (bendBlock cfg syI syJ centerJ k).unscaledForceComJ =
        -(bendBlock cfg syI syJ centerJ k).unscaledForceComI) := by
  refine ⟨?_, ?_, ?_, ?_⟩
  · intro sI sJ srcShift
    rw [collide_eval]
    by_cases h : sI.gid < sJ.gid ∧
        Vec3.vnorm (sJ.pos + srcShift - sI.pos) - sI.radiusCollision - sJ.radiusCollision <
          GEO_DEFAULT_COLBUF * sI.radiusCollision
    · rw [if_pos h]
      exact rfl
    · rw [if_neg h]
      trivial
  · intro syI syJ centerJ k
    rfl
  · intro cfg syI syJ centerJ
    rfl
  · intro cfg syI syJ centerJ k
    simp only [bendBlock, ConstraintBlock.mk2]
    ext
    all_goals norm_num

/-- C1 (intended pin generation; the compiled loop is defeated by the
assignment-in-condition defect `for (size_t i = 0; i = 3; i++)`): for one pin
edge the generator is intended to emit exactly three bilateral blocks, one
per world axis k, whose initial gap is the k-th component of the plus end of
I minus the minus end of the periodic-image-resolved J, whose unit force on I
is the world basis vector e_k (negated on J), and whose stiffness is 0. -/
theorem pin_link_three_blocks (syI : Sylinder) (syJ : SylinderNearEntry) (centerJ : Vec3) :
    pinBlocksIntended syI syJ centerJ =
      [pinBlock syI syJ centerJ 0, pinBlock syI syJ centerJ 1, pinBlock syI syJ centerJ 2] ∧
    (pinBlocksIntended syI syJ centerJ).length = 3 ∧
    ∀ k : Fin 3,
      (pinBlock syI syJ centerJ k).delta0 = (plusEnd syI - minusEnd syJ centerJ).nth k ∧
      (pinBlock syI syJ centerJ k).unscaledForceComI = basis3 k ∧
      (pinBlock syI syJ centerJ k).unscaledForceComJ = -(basis3 k) ∧
      (pinBlock syI syJ centerJ k).kappa = 0 ∧
      (pinBlock syI syJ centerJ k).bilateral = true ∧
      (pinBlock syI syJ centerJ k).oneSide = false ∧
      (pinBlock syI syJ centerJ k).gidI = syI.gid ∧
      (pinBlock syI syJ centerJ k).gidJ = syJ.gid := by
  refine ⟨rfl, rfl, ?_⟩
  intro k
  exact ⟨rfl, rfl, rfl, rfl, rfl, rfl, rfl, rfl⟩

/-- C5: for each extend-link edge the generator emits one bilateral block
whose initial gap is `|P_I - Q_J| - r_I - r_J - gap_ext` (with physical
radii), whose unit force direction on I is `(P_I - Q_J)/|P_I - Q_J|` (negated
on J), and whose stiffness equals the configured extend-link stiffness. -/
theorem extend_link_block (cfg : SylinderConfig) (syI : Sylinder)
    (syJ : SylinderNearEntry) (centerJ : Vec3) :
    (extendBlock cfg syI syJ centerJ).delta0 =
      Vec3.vnorm (plusEnd syI - minusEnd syJ centerJ) - syI.radius - syJ.radius -
        cfg.extendLinkGap ∧
    (extendBlock cfg syI syJ centerJ).unscaledForceComI =
      Vec3.vnormalize (plusEnd syI - minusEnd syJ centerJ) ∧
    (extendBlock cfg syI syJ centerJ).unscaledForceComJ =
      -(extendBlock cfg syI syJ centerJ).unscaledForceComI ∧
    (extendBlock cfg syI syJ centerJ).kappa = cfg.extendLinkKappa ∧
    (extendBlock cfg syI syJ centerJ).bilateral = true ∧
    (extendBlock cfg syI syJ centerJ).oneSide = false ∧
    (extendBlock cfg syI syJ centerJ).gidI = syI.gid ∧
    (extendBlock cfg syI syJ centerJ).gidJ = syJ.gid := by
  have h1 : (extendBlock cfg syI syJ centerJ).delta0 =
      Vec3.vnorm (minusEnd syJ centerJ - plusEnd syI) - syI.radius - syJ.radius -
        cfg.extendLinkGap := rfl
  exact ⟨by rw [h1, Vec3.vnorm_sub_comm], rfl, rfl, rfl, rfl, rfl, rfl, rfl⟩

/-- C2 (amended): the identity `unscaledTorqueComI = (labI - centerI) x
unscaledForceComI` (and likewise on the J side) holds for every pin-link and
extend-link block, and holds trivially for tri-bend blocks (whose stored
contact points are the rod centers and whose torque fields are zero). It
fails for boundary-collision blocks, which store the lever arm itself in the
torque field, and for bend blocks, which carry a pure director torque with
zero force (see the counterexample). -/
theorem torque_is_lever_cross_force_amended :
    (∀ (syI : Sylinder) (syJ : SylinderNearEntry) (centerJ : Vec3) (k : Fin 3),
      (pinBlock syI syJ centerJ k).unscaledTorqueComI =
        Vec3.cross ((pinBlock syI syJ centerJ k).labI - syI.pos)
          (pinBlock syI syJ centerJ k).unscaledForceComI ∧
      (pinBlock syI syJ centerJ k).unscaledTorqueComJ =
        Vec3.cross ((pinBlock syI syJ centerJ k).labJ - centerJ)
          (pinBlock syI syJ centerJ k).unscaledForceComJ) ∧
    (∀ (cfg : SylinderConfig) (syI : Sylinder) (syJ : SylinderNearEntry) (centerJ : Vec3),
      (extendBlock cfg syI syJ centerJ).unscaledTorqueComI =
        Vec3.cross ((extendBlock cfg syI syJ centerJ).labI - syI.pos)
          (extendBlock cfg syI syJ centerJ).unscaledForceComI ∧
      (extendBlock cfg syI syJ centerJ).unscaledTorqueComJ =
        Vec3.cross ((extendBlock cfg syI syJ centerJ).labJ - centerJ)
          (extendBlock cfg syI syJ centerJ).unscaledForceComJ) ∧
    (∀ (cfg : SylinderConfig) (syI : Sylinder) (syJ syK : SylinderNearEntry)
        (centerJ centerK : Vec3) (k : Fin 3),
      (triBendBlock cfg syI syJ syK centerJ centerK k).unscaledTorqueComI =
        Vec3.cross ((triBendBlock cfg syI syJ syK centerJ centerK k).labI - syI.pos)
          (triBendBlock cfg syI syJ syK centerJ centerK k).unscaledForceComI) := by
  refine ⟨?_, ?_, ?_⟩
  · intro syI syJ centerJ k
    exact ⟨rfl, rfl⟩
  · intro cfg syI syJ centerJ
    exact ⟨rfl, rfl⟩
  · intro cfg syI syJ syK centerJ centerK k
    simp only [triBendBlock, ConstraintBlock.mk3, Vec3.cross, Vec3.sub_def]
    ext
    all_goals simp

/-- C2 counterexample: the boundary-collision generator, for a rod of
collision length 1 along z with center (0.3, 0, 0) against a wall through the
origin with inward normal x, emits a first block whose stored
`unscaledTorqueComI` is the lever arm (0, 0, -0.5) itself, while
`(labI - centerI) x unscaledForceComI = (0, -0.5, 0)`; and the bend generator
at two identically oriented rods stores the pure torque (-1, 0, 0) with zero
force, so its `(labI - centerI) x unscaledForceComI` is zero. -/
theorem boundary_torque_cex :
    ((collectBoundarySylinder (wallProject ⟨⟨0, 0, 0⟩, ⟨1, 0, 0⟩⟩) 0.3
        ⟨7, 7, ⟨0.3, 0, 0⟩, Quat.qid, 1, 1, 0.2, 0.2, false⟩ false).head?).map
        (fun b => (b.unscaledTorqueComI,
          Vec3.cross (b.labI - (⟨0.3, 0, 0⟩ : Vec3)) b.unscaledForceComI)) =
      some ((⟨0, 0, -0.5⟩ : Vec3), (⟨0, -0.5, 0⟩ : Vec3)) ∧
    ((⟨0, 0, -0.5⟩ : Vec3) ≠ (⟨0, -0.5, 0⟩ : Vec3)) ∧
    (bendBlock ⟨![0, 0, 0], ![10, 10, 10], ![false, false, false], 0.3, 1, 0,
        ![1, 1, 1], ![1, 1, 1], ![0, 0, 0]⟩
        ⟨1, 1, ⟨0, 0, 0⟩, Quat.qid, 1, 1, 0.2, 0.2, false⟩
        ⟨2, 2, ⟨0, 0, 1⟩, ⟨0, 0, 1⟩, Quat.qid, 1, 0.2⟩ ⟨0, 0, 1⟩ 0).unscaledTorqueComI =
      ⟨-1, 0, 0⟩ ∧
    Vec3.cross
        ((bendBlock ⟨![0, 0, 0], ![10, 10, 10], ![false, false, false], 0.3, 1, 0,
            ![1, 1, 1], ![1, 1, 1], ![0, 0, 0]⟩
          ⟨1, 1, ⟨0, 0, 0⟩, Quat.qid, 1, 1, 0.2, 0.2, false⟩
          ⟨2, 2, ⟨0, 0, 1⟩, ⟨0, 0, 1⟩, Quat.qid, 1, 0.2⟩ ⟨0, 0, 1⟩ 0).labI - (⟨0, 0, 0⟩ : Vec3))
        (bendBlock ⟨![0, 0, 0], ![10, 10, 10], ![false, false, false], 0.3, 1, 0,
            ![1, 1, 1], ![1, 1, 1], ![0, 0, 0]⟩
          ⟨1, 1, ⟨0, 0, 0⟩, Quat.qid, 1, 1, 0.2, 0.2, false⟩
          ⟨2, 2, ⟨0, 0, 1⟩, ⟨0, 0, 1⟩, Quat.qid, 1, 0.2⟩ ⟨0, 0, 1⟩ 0).unscaledForceComI = 0 ∧
    ((⟨-1, 0, 0⟩ : Vec3) ≠ 0) := by
  have hproj : wallProject ⟨⟨0, 0, 0⟩, ⟨1, 0, 0⟩⟩ ⟨0.3, 0, -0.5⟩ =
      ((⟨0, 0, -0.5⟩ : Vec3), (⟨0.3, 0, 0⟩ : Vec3)) := by
    simp only [wallProject]
    rw [if_pos (by norm_num [Vec3.dot])]
    simp only [Prod.mk.injEq]
    constructor
    · ext
      all_goals norm_num [Vec3.dot]
    · ext
      all_goals norm_num [Vec3.dot]
  have hn03 : Vec3.vnorm ⟨0.3, 0, 0⟩ = (0.3 : ℝ) := by
    unfold Vec3.vnorm Vec3.normSq
    exact sqrt_eval (by norm_num) (by norm_num)
  have hce : checkEnd (wallProject ⟨⟨0, 0, 0⟩, ⟨1, 0, 0⟩⟩) 0.3
      ⟨7, 7, ⟨0.3, 0, 0⟩, Quat.qid, 1, 1, 0.2, 0.2, false⟩ ⟨0.3, 0, -0.5⟩ 0.2 =
      some (ConstraintBlock.mk2 (0.3 - 0.2) 0 7 7 7 7 ⟨1, 0, 0⟩ ⟨1, 0, 0⟩
        ⟨0, 0, -0.5⟩ ⟨0, 0, -0.5⟩ ⟨0.3, 0, -0.5⟩ ⟨0, 0, -0.5⟩ true false 0) := by
    simp only [checkEnd, hproj, hn03]
    rw [if_neg (by norm_num [Vec3.dot]), if_pos (by norm_num)]
    simp only [Option.some.injEq]
    unfold ConstraintBlock.mk2
    simp only [ConstraintBlock.mk.injEq]
    norm_num
  have hQm : ((⟨0.3, 0, 0⟩ : Vec3) -
      (((⟨7, 7, ⟨0.3, 0, 0⟩, Quat.qid, 1, 1, 0.2, 0.2, false⟩ : Sylinder).lengthCollision) * 0.5) •
        Quat.qrot Quat.qid ⟨0, 0, 1⟩) = (⟨0.3, 0, -0.5⟩ : Vec3) := by
    rw [qrot_qid]
    ext
    all_goals norm_num
  refine ⟨?_, ?_, ?_, ?_, ?_⟩
  · simp only [collectBoundarySylinder, Bool.false_eq_true, if_false, hQm, hce,
      Option.toList_some, List.cons_append, List.head?_cons]
    simp only [Option.map_some', Option.some.injEq, Prod.mk.injEq]
    unfold ConstraintBlock.mk2
    constructor
    · rfl
    · simp only [Vec3.cross, Vec3.sub_def]
      ext
      all_goals norm_num
  · intro hcontra
    have := congrArg Vec3.z hcontra
    norm_num at this
  · simp only [bendBlock, ConstraintBlock.mk2, slerp_half_qid, qnormalize_one,
      Matrix.cons_val_zero, qrot_qid]
    ext
    all_goals norm_num
  · simp only [bendBlock, ConstraintBlock.mk2, Vec3.cross]
    ext
    all_goals norm_num
  · intro hcontra
    have := congrArg Vec3.x hcontra
    norm_num at this

/-- C4: the boundary check emits a block exactly when the query point is on
the outside of the boundary or inside it with projection distance below
`(1 + 2 * bufferRatio) * radiusCollision`; every emitted block is one-sided
(`oneSide = true`), unilateral (`bilateral = false`), has `gidJ = gidI`, and
its J-side force and torque fields duplicate the I-side ones. Concretely, for
one sphere of effective collision radius 0.5 centered at (0, 0, 0.4) above
the wall z = 0 with inward normal z, exactly one one-sided block is emitted,
with `delta0 = -0.1`. -/
theorem boundary_collision_blocks (project : Vec3 → Vec3 × Vec3) (colBuf : ℝ)
    (sy : Sylinder) (Query : Vec3) (radius : ℝ) :
    ((checkEnd project colBuf sy Query radius).isSome = true ↔
      (Vec3.dot (Query - (project Query).1) (project Query).2 < 0 ∨
        Vec3.vnorm (project Query).2 < (1 + colBuf * 2) * sy.radiusCollision)) ∧
    ((checkEnd project colBuf sy Query radius).elim True fun b =>
      b.oneSide = true ∧ b.bilateral = false ∧ b.gidI = sy.gid ∧ b.gidJ = sy.gid ∧
      b.unscaledForceComJ = b.unscaledForceComI ∧
      b.unscaledTorqueComJ = b.unscaledTorqueComI ∧
      b.labI = Query ∧ b.labJ = (project Query).1) ∧
    (collectBoundarySylinder (wallProject ⟨⟨0, 0, 0⟩, ⟨0, 0, 1⟩⟩) 0.3
        ⟨9, 9, ⟨0, 0, 0.4⟩, Quat.qid, 0, 0, 0.5, 0.5, false⟩ true).map
        (fun b => (b.delta0, b.oneSide)) = [(-0.1, true)] := by
  refine ⟨?_, ?_, ?_⟩
  · simp only [checkEnd]
    by_cases h1 : Vec3.dot (Query - (project Query).1) (project Query).2 < 0
    · rw [if_pos h1]
      exact ⟨fun _ => Or.inl h1, fun _ => rfl⟩
    · rw [if_neg h1]
      by_cases h2 : Vec3.vnorm (project Query).2 < (1 + colBuf * 2) * sy.radiusCollision
      · rw [if_pos h2]
        exact ⟨fun _ => Or.inr h2, fun _ => rfl⟩
      · rw [if_neg h2]
        exact iff_of_false (by simp) (not_or.mpr ⟨h1, h2⟩)
  · simp only [checkEnd]
    by_cases h1 : Vec3.dot (Query - (project Query).1) (project Query).2 < 0
    · rw [if_pos h1]
      exact ⟨rfl, rfl, rfl, rfl, rfl, rfl, rfl, rfl⟩
    · rw [if_neg h1]
      by_cases h2 : Vec3.vnorm (project Query).2 < (1 + colBuf * 2) * sy.radiusCollision
      · rw [if_pos h2]
        exact ⟨rfl, rfl, rfl, rfl, rfl, rfl, rfl, rfl⟩
      · rw [if_neg h2]
        trivial
  · have hproj : wallProject ⟨⟨0, 0, 0⟩, ⟨0, 0, 1⟩⟩ ⟨0, 0, 0.4⟩ =
        ((⟨0, 0, 0⟩ : Vec3), (⟨0, 0, 0.4⟩ : Vec3)) := by
      simp only [wallProject]
      rw [if_pos (by norm_num [Vec3.dot])]
      simp only [Prod.mk.injEq]
      constructor
      · ext
        all_goals norm_num [Vec3.dot]
      · ext
        all_goals norm_num [Vec3.dot]
    have hn04 : Vec3.vnorm ⟨0, 0, 0.4⟩ = (0.4 : ℝ) := by
      unfold Vec3.vnorm Vec3.normSq
      exact sqrt_eval (by norm_num) (by norm_num)
    have hce : checkEnd (wallProject ⟨⟨0, 0, 0⟩, ⟨0, 0, 1⟩⟩) 0.3
        ⟨9, 9, ⟨0, 0, 0.4⟩, Quat.qid, 0, 0, 0.5, 0.5, false⟩ ⟨0, 0, 0.4⟩
        ((0 : ℝ) * 0.5 + 0.5) =
        some (ConstraintBlock.mk2 (0.4 - (0 * 0.5 + 0.5)) 0 9 9 9 9 ⟨0, 0, 1⟩ ⟨0, 0, 1⟩
          ⟨0, 0, 0⟩ ⟨0, 0, 0⟩ ⟨0, 0, 0.4⟩ ⟨0, 0, 0⟩ true false 0) := by
      simp only [checkEnd, hproj, hn04]
      rw [if_neg (by norm_num [Vec3.dot]), if_pos (by norm_num)]
      simp only [Option.some.injEq]
      unfold ConstraintBlock.mk2
      simp only [ConstraintBlock.mk.injEq]
      norm_num
    simp only [collectBoundarySylinder, if_true, hce, Option.toList_some, List.map_cons,
      List.map_nil]
    unfold ConstraintBlock.mk2
    norm_num

/-- The column offsets of the 18 per-rod sparse entries relative to the
rod's first mobility row `6 * i`. -/
def colOffset : Fin 18 → ℕ :=
  ![0, 1, 2, 0, 1, 2, 0, 1, 2, 3, 4, 5, 3, 4, 5, 3, 4, 5]

theorem rowPointersFun_eq (n : ℕ) : rowPointersFun n = 3 * n := by
  induction n with
  | zero => rfl
  | succ k ih =>
    simp only [rowPointersFun, ih]
    ring

/-- C7: each rod contributes 18 sparse entries (3 per row over its 6 rows);
the column indices stay inside the rod's own 6-column block, with the
translational rows hitting columns 6i..6i+2 and the rotational rows
6i+3..6i+5; an immovable rod stores 18 zeros; for a movable rod the
translational 3x3 block is `(1/dragPara) q qT + (1/dragPerp)(I - q qT)` and
the rotational block is `(1/dragRot) I`. -/
theorem mobility_matrix_blocks (q : Vec3) (dragPara dragPerp dragRot : ℝ) :
    (∀ i : ℕ, rowPointersFun (6 * (i + 1)) - rowPointersFun (6 * i) = 18) ∧
    (∀ i : ℕ, mobColumnIndices i = fun k => 6 * i + colOffset k) ∧
    (∀ k : Fin 18, colOffset k < 6) ∧
    (∀ k : Fin 18, mobValues q dragPara dragPerp dragRot true k = 0) ∧
    mobTransMat q dragPara dragPerp false =
      (1 / dragPara) • outer3 q q + (1 / dragPerp) • (1 - outer3 q q) ∧
    mobRotMat q dragRot false = (1 / dragRot) • (1 : Matrix (Fin 3) (Fin 3) ℝ) := by
  refine ⟨?_, ?_, by decide, ?_, rfl, ?_⟩
  · intro i
    rw [rowPointersFun_eq, rowPointersFun_eq]
    omega
  · intro i
    funext k
    fin_cases k
    all_goals rfl
  · intro k
    have ht : mobTransMat q dragPara dragPerp true = 0 := by
      simp [mobTransMat]
    have hr : mobRotMat q dragRot true = 0 := by
      simp [mobRotMat]
    fin_cases k
    all_goals simp only [mobValues, ht, hr]
    all_goals rfl
  · show (1 / dragRot) • outer3 q q + (1 / dragRot) • (1 - outer3 q q) =
      (1 / dragRot) • (1 : Matrix (Fin 3) (Fin 3) ℝ)
    rw [← smul_add]
    congr 1
    abel

/-- The simulation box of the pin-link PBC scenario: `[0,10]^3` with periodic
boundaries on all three axes (the remaining configuration fields are unused
by the scenario). -/
noncomputable def cfgBox : SylinderConfig :=
  ⟨![0, 0, 0], ![10, 10, 10], ![true, true, true], 0.3, 1, 0, ![1, 1, 1], ![1, 1, 1],
    ![0, 0, 0]⟩

theorem findPBCImage_box1 : findPBCImage 0 10 0.1 9.9 = 10.1 := by
  unfold findPBCImage
  have hr : round (((9.9 : ℝ) - 0.1) / (10 - 0)) = 1 := by
    rw [round_eq]
    have h148 : ((9.9 : ℝ) - 0.1) / (10 - 0) + 1 / 2 = 1.48 := by norm_num
    rw [h148, Int.floor_eq_iff]
    norm_num
  rw [hr]
  norm_num

theorem findPBCImage_box5 : findPBCImage 0 10 5 5 = 5 := by
  unfold findPBCImage
  have hr : round (((5 : ℝ) - 5) / (10 - 0)) = 0 := by
    norm_num
  rw [hr]
  norm_num

theorem resolve_box_scenario :
    resolvePBCImage cfgBox ⟨9.9, 5, 5⟩ ⟨0.1, 5, 5⟩ = Except.ok ⟨10.1, 5, 5⟩ := by
  have himg0 : (if cfgBox.simBoxPBC 0 then
      findPBCImage (cfgBox.simBoxLow 0) (cfgBox.simBoxHigh 0)
        ((⟨0.1, 5, 5⟩ : Vec3).nth 0) ((⟨9.9, 5, 5⟩ : Vec3).nth 0)
    else (⟨0.1, 5, 5⟩ : Vec3).nth 0) = 10.1 := by
    rw [if_pos (show cfgBox.simBoxPBC 0 = true from rfl)]
    exact findPBCImage_box1
  have himg1 : (if cfgBox.simBoxPBC 1 then
      findPBCImage (cfgBox.simBoxLow 1) (cfgBox.simBoxHigh 1)
        ((⟨0.1, 5, 5⟩ : Vec3).nth 1) ((⟨9.9, 5, 5⟩ : Vec3).nth 1)
    else (⟨0.1, 5, 5⟩ : Vec3).nth 1) = 5 := by
    rw [if_pos (show cfgBox.simBoxPBC 1 = true from rfl)]
    exact findPBCImage_box5
  have himg2 : (if cfgBox.simBoxPBC 2 then
      findPBCImage (cfgBox.simBoxLow 2) (cfgBox.simBoxHigh 2)
        ((⟨0.1, 5, 5⟩ : Vec3).nth 2) ((⟨9.9, 5, 5⟩ : Vec3).nth 2)
    else (⟨0.1, 5, 5⟩ : Vec3).nth 2) = 5 := by
    rw [if_pos (show cfgBox.simBoxPBC 2 = true from rfl)]
    exact findPBCImage_box5
  have hax0 : |(⟨9.9, 5, 5⟩ : Vec3).nth 0 - (if cfgBox.simBoxPBC 0 then
      findPBCImage (cfgBox.simBoxLow 0) (cfgBox.simBoxHigh 0)
        ((⟨0.1, 5, 5⟩ : Vec3).nth 0) ((⟨9.9, 5, 5⟩ : Vec3).nth 0)
    else (⟨0.1, 5, 5⟩ : Vec3).nth 0)| ≤
      0.5 * (cfgBox.simBoxHigh 0 - cfgBox.simBoxLow 0) := by
    rw [himg0]
    show |(9.9 : ℝ) - 10.1| ≤ 0.5 * (10 - 0)
    rw [abs_le]
    constructor
    all_goals norm_num
  have hax1 : |(⟨9.9, 5, 5⟩ : Vec3).nth 1 - (if cfgBox.simBoxPBC 1 then
      findPBCImage (cfgBox.simBoxLow 1) (cfgBox.simBoxHigh 1)
        ((⟨0.1, 5, 5⟩ : Vec3).nth 1) ((⟨9.9, 5, 5⟩ : Vec3).nth 1)
    else (⟨0.1, 5, 5⟩ : Vec3).nth 1)| ≤
      0.5 * (cfgBox.simBoxHigh 1 - cfgBox.simBoxLow 1) := by
    rw [himg1]
    show |(5 : ℝ) - 5| ≤ 0.5 * (10 - 0)
    rw [abs_le]
    constructor
    all_goals norm_num
  have hax2 : |(⟨9.9, 5, 5⟩ : Vec3).nth 2 - (if cfgBox.simBoxPBC 2 then
      findPBCImage (cfgBox.simBoxLow 2) (cfgBox.simBoxHigh 2)
        ((⟨0.1, 5, 5⟩ : Vec3).nth 2) ((⟨9.9, 5, 5⟩ : Vec3).nth 2)
    else (⟨0.1, 5, 5⟩ : Vec3).nth 2)| ≤
      0.5 * (cfgBox.simBoxHigh 2 - cfgBox.simBoxLow 2) := by
    rw [himg2]
    show |(5 : ℝ) - 5| ≤ 0.5 * (10 - 0)
    rw [abs_le]
    constructor
    all_goals norm_num
  simp only [resolvePBCImage]
  have hguard : ∀ k : Fin 3, cfgBox.simBoxPBC k = true →
      |(⟨9.9, 5, 5⟩ : Vec3).nth k - (if cfgBox.simBoxPBC k then
        findPBCImage (cfgBox.simBoxLow k) (cfgBox.simBoxHigh k)
          ((⟨0.1, 5, 5⟩ : Vec3).nth k) ((⟨9.9, 5, 5⟩ : Vec3).nth k)
      else (⟨0.1, 5, 5⟩ : Vec3).nth k)| ≤
        0.5 * (cfgBox.simBoxHigh k - cfgBox.simBoxLow k) := by
    intro k _
    match k with
    | ⟨0, _⟩ => exact hax0
    | ⟨1, _⟩ => exact hax1
    | ⟨2, _⟩ => exact hax2
  rw [if_pos hguard, himg0, himg1, himg2]

/-- C8 (amended): on every periodic axis the partner center is replaced by
the periodic image nearest to rod I's center (an integer number of box
lengths away, within half a box length of the target when the box length is
positive); the generators abort exactly when the selected image still
differs from I's center by more than half the box length on some periodic
axis; hence every non-aborting resolution satisfies the half-box bound on
all periodic axes. In the scenario of the box [0,10]^3 with PBC everywhere
and a pin from an end at (9.9, 5, 5) to an end at (0.1, 5, 5), the shift
(+10, 0, 0) is chosen for B (image center 10.1), so the pin gaps are
(-0.2, 0, 0) rather than (9.8, 0, 0). -/
theorem pbc_image_selection_amended :
    (∀ low high x trg : ℝ, 0 < high - low →
      |findPBCImage low high x trg - trg| ≤ (high - low) / 2 ∧
      ∃ n : ℤ, findPBCImage low high x trg = x + (high - low) * n) ∧
    (∀ (cfg : SylinderConfig) (cI cJ : Vec3),
      match resolvePBCImage cfg cI cJ with
      | Except.error _ => True
      | Except.ok v => ∀ k : Fin 3,
          if cfg.simBoxPBC k then
            |v.nth k - cI.nth k| ≤ 0.5 * (cfg.simBoxHigh k - cfg.simBoxLow k)
          else True) ∧
    (resolvePBCImage cfgBox ⟨9.9, 5, 5⟩ ⟨0.1, 5, 5⟩ = Except.ok ⟨10.1, 5, 5⟩ ∧
      (10.1 : ℝ) = 0.1 + 10 ∧
      ∀ k : Fin 3,
        (pinBlock ⟨0, 0, ⟨9.9, 5, 5⟩, Quat.qid, 0, 0, 0.1, 0.1, false⟩
          ⟨1, 1, ⟨0.1, 5, 5⟩, ⟨0, 0, 1⟩, Quat.qid, 0, 0.1⟩ ⟨10.1, 5, 5⟩ k).delta0 =
          (⟨-0.2, 0, 0⟩ : Vec3).nth k) := by
  refine ⟨?_, ?_, resolve_box_scenario, by norm_num, ?_⟩
  · intro low high x trg hpos
    constructor
    · unfold findPBCImage
      have habs := abs_sub_round ((trg - x) / (high - low))
      have hne : high - low ≠ 0 := ne_of_gt hpos
      have hrw : x + (high - low) * (round ((trg - x) / (high - low)) : ℤ) - trg =
          -((high - low) * ((trg - x) / (high - low) -
            (round ((trg - x) / (high - low)) : ℤ))) := by
        field_simp
        ring
      rw [hrw, abs_neg, abs_mul, abs_of_pos hpos]
      calc (high - low) * |(trg - x) / (high - low) - (round ((trg - x) / (high - low)) : ℤ)|
          ≤ (high - low) * (1 / 2) := by
            apply mul_le_mul_of_nonneg_left _ (le_of_lt hpos)
            exact habs
        _ = (high - low) / 2 := by ring
    · exact ⟨round ((trg - x) / (high - low)), rfl⟩
  · intro cfg cI cJ
    simp only [resolvePBCImage]
    by_cases hg : ∀ k : Fin 3, cfg.simBoxPBC k = true →
        |cI.nth k - (if cfg.simBoxPBC k then
          findPBCImage (cfg.simBoxLow k) (cfg.simBoxHigh k) (cJ.nth k) (cI.nth k)
        else cJ.nth k)| ≤ 0.5 * (cfg.simBoxHigh k - cfg.simBoxLow k)
    · rw [if_pos hg]
      intro k
      by_cases hk : cfg.simBoxPBC k = true
      · rw [if_pos hk]
        have hb := hg k hk
        rw [abs_sub_comm] at hb
        calc |(Vec3.ofFin fun k => if cfg.simBoxPBC k then
                findPBCImage (cfg.simBoxLow k) (cfg.simBoxHigh k) (cJ.nth k) (cI.nth k)
              else cJ.nth k).nth k - cI.nth k|
            = |(if cfg.simBoxPBC k then
                findPBCImage (cfg.simBoxLow k) (cfg.simBoxHigh k) (cJ.nth k) (cI.nth k)
              else cJ.nth k) - cI.nth k| := by rw [Vec3.nth_ofFin]
          _ ≤ 0.5 * (cfg.simBoxHigh k - cfg.simBoxLow k) := hb
      · rw [if_neg hk]
        trivial
    · rw [if_neg hg]
      trivial
  · intro k
    fin_cases k
    all_goals norm_num [pinBlock, ConstraintBlock.mk2, qrot_qid]

/-- C8 witness: the amended image-selection theorem instantiated on the
concrete box axis [0, 10] with source coordinate 0.1 and target 9.9. -/
theorem pbc_image_selection_amended_witness :
    (0 : ℝ) < 10 - 0 ∧
    |findPBCImage 0 10 0.1 9.9 - 9.9| ≤ (10 - 0) / 2 ∧
    ∃ n : ℤ, findPBCImage 0 10 0.1 9.9 = 0.1 + (10 - 0) * n := by
  have h := pbc_image_selection_amended.1 0 10 0.1 9.9 (by norm_num)
  exact ⟨by norm_num, h.1, h.2⟩

/-- C8 counterexample: in the pin PBC scenario the image actually selected
for B's center is `0.1 + 10 = 10.1` — the shift is (+10, 0, 0), not the
(-10, 0, 0) stated by the claim, which would place the image at -9.9. -/
theorem pbc_shift_sign_cex :
    resolvePBCImage cfgBox ⟨9.9, 5, 5⟩ ⟨0.1, 5, 5⟩ = Except.ok ⟨10.1, 5, 5⟩ ∧
    (10.1 : ℝ) ≠ 0.1 + (-10) := by
  exact ⟨resolve_box_scenario, by norm_num⟩

/-- C9: for every block emitted by the tri-bend generator the three stored
unscaled forces cancel: `forceI + forceJ + forceK = 0` componentwise, by the
algebraic structure of the lever distribution (independently of the values
of the pseudo-inverted chord moment tensors). -/
theorem tribend_zero_net_force (cfg : SylinderConfig) (syI : Sylinder)
    (syJ syK : SylinderNearEntry) (centerJ centerK : Vec3) (k : Fin 3) :
    (triBendBlock cfg syI syJ syK centerJ centerK k).unscaledForceComI +
      (triBendBlock cfg syI syJ syK centerJ centerK k).unscaledForceComJ +
      (triBendBlock cfg syI syJ syK centerJ centerK k).unscaledForceComK = 0 := by
  simp only [triBendBlock, ConstraintBlock.mk3]
  ext
  all_goals simp only [Vec3.add_def, Vec3.neg_def, Vec3.sub_def, Vec3.zero_x, Vec3.zero_y,
    Vec3.zero_z]
  all_goals ring

end SimToolbox
